import Mathlib

/-!
Verification of the atef checkout/verification engine's GUI-support layer
against its specification.  Each section embeds one group of source
functions (from `atef/util.py`, `atef/widgets/config.py`,
`atef/widgets/config/data.py`, `atef/widgets/config/utils.py`) as Lean
definitions and proves or refutes the corresponding spec sentences.
-/

set_option autoImplicit false

namespace Atef

/-! ## Severity and `get_maximum_severity` (src/atef/util.py) -/

/-- Modelled from the spec: the `Severity` enum (`atef/enums.py`, not under
`src/`) is a totally ordered enum `success < warning < error < internalError`,
used both as a per-check verdict and as the aggregation unit. -/
inductive Severity where
  | success
  | warning
  | error
  | internalError
  deriving DecidableEq, Repr

/-- Modelled from the spec: the integer `.value` of each enum member, in the
spec's fixed total order (`success < warning < error < internalError`). -/
def Severity.value : Severity → Nat
  | .success => 0
  | .warning => 1
  | .error => 2
  | .internalError => 3

/-- Modelled from the spec: the enum constructor `Severity(n)`, which yields
the member with value `n` and fails (`ValueError`) for any other integer:
"aggregation must never invent a severity outside the four named levels". -/
def Severity.ofValue : Nat → Option Severity
  | 0 => some .success
  | 1 => some .warning
  | 2 => some .error
  | 3 => some .internalError
  | _ => none

/-- The Python builtin `max` over a sequence of naturals: raises on an empty
sequence (`none`), otherwise folds binary `max` over the elements. -/
def pyMax : List Nat → Option Nat
  | [] => none
  | x :: xs => some (xs.foldl Nat.max x)

/-- `atef.util.get_maximum_severity`:
`Severity(max(severity.value for severity in tuple(severities) + (Severity.success,)))`. -/
def get_maximum_severity (severities : List Severity) : Option Severity :=
  (pyMax ((severities ++ [Severity.success]).map Severity.value)).bind Severity.ofValue

/-- Binary maximum of two severities in the spec's order (larger value wins). -/
def Severity.max (a b : Severity) : Severity :=
  if a.value ≤ b.value then b else a

/-- Spec-side definition: the maximum of the input severities together with
`success` (so the empty input yields `success`). -/
def maxSeveritySpec (l : List Severity) : Severity :=
  l.foldr Severity.max Severity.success

theorem Severity.value_max (a b : Severity) :
    (Severity.max a b).value = Nat.max a.value b.value := by
  cases a <;> cases b <;> decide

theorem Severity.ofValue_value (s : Severity) :
    Severity.ofValue s.value = some s := by
  cases s <;> rfl

theorem value_maxSeveritySpec (l : List Severity) :
    (maxSeveritySpec l).value = (l.map Severity.value).foldr Nat.max 0 := by
  induction l with
  | nil => rfl
  | cons a xs ih =>
      simp [maxSeveritySpec, List.foldr_cons, Severity.value_max] at *
      rw [ih]

theorem foldl_max_eq_foldr (l : List Nat) (a : Nat) :
    l.foldl Nat.max a = Nat.max a (l.foldr Nat.max 0) := by
  induction l generalizing a with
  | nil => simp
  | cons x xs ih =>
      simp only [List.foldl_cons, List.foldr_cons]
      rw [ih]
      exact Nat.max_assoc a x _

theorem get_maximum_severity_eq (l : List Severity) :
    get_maximum_severity l = some (maxSeveritySpec l) := by
  cases l with
  | nil => rfl
  | cons a xs =>
      simp only [get_maximum_severity, List.cons_append, List.map_cons, pyMax,
        Option.bind_some, Option.some_bind]
      rw [foldl_max_eq_foldr]
      have hfold : ((xs ++ [Severity.success]).map Severity.value).foldr Nat.max 0
          = (xs.map Severity.value).foldr Nat.max 0 := by
        simp [List.map_append, List.foldr_append, Severity.value]
      rw [hfold]
      have : Nat.max a.value ((xs.map Severity.value).foldr Nat.max 0)
          = (maxSeveritySpec (a :: xs)).value := by
        rw [value_maxSeveritySpec]
        simp [List.map_cons, List.foldr_cons]
      rw [this, Severity.ofValue_value]

/-- C1: for every sequence of severities, `get_maximum_severity` succeeds and
returns exactly the maximum of the input severities together with `success`;
in particular the empty sequence yields `success`. -/
theorem get_maximum_severity_is_max :
    (∀ l : List Severity, get_maximum_severity l = some (maxSeveritySpec l)) ∧
    get_maximum_severity [] = some Severity.success := by
  refine ⟨fun l => get_maximum_severity_eq l, ?_⟩
  rfl

/-- C2: aggregation never produces a severity outside the enum: for every
input sequence, `get_maximum_severity` returns (without failing) one of the
four named levels. -/
theorem get_maximum_severity_in_enum (l : List Severity) :
    ∃ s, get_maximum_severity l = some s ∧
      (s = Severity.success ∨ s = Severity.warning ∨
       s = Severity.error ∨ s = Severity.internalError) := by
  refine ⟨maxSeveritySpec l, get_maximum_severity_eq l, ?_⟩
  cases maxSeveritySpec l <;> simp

/-! ## `get_happi_device_by_name` (src/atef/util.py) -/

/-- The external happi database client (an out-of-scope collaborator; the
spec's naming/resolution service).  `find name = none` models `client[name]`
raising `KeyError` (name absent from the database); `some (Except.error e)`
models a search result present in the database whose `.get()` raises (the
string carries the exception's class name and message); `some (Except.ok d)`
models a search result whose `.get()` returns the instantiated device. -/
structure HappiClient (Device : Type) where
  find : String → Option (Except String Device)

/-- The two exception types raised by `get_happi_device_by_name`
(`atef.exceptions.MissingHappiDeviceError` and `atef.exceptions.HappiLoadError`),
each carrying its message. -/
inductive HappiError where
  | missingHappiDeviceError (msg : String)
  | happiLoadError (msg : String)
  deriving DecidableEq

/-- `atef.util.get_happi_device_by_name`: look the name up in the database;
`KeyError` becomes `MissingHappiDeviceError`, a failing `search_result.get()`
becomes `HappiLoadError`, otherwise the instantiated device is returned. -/
def get_happi_device_by_name {Device : Type}
    (client : HappiClient Device) (name : String) : Except HappiError Device :=
  match client.find name with
  | none =>
      Except.error (HappiError.missingHappiDeviceError
        ("Device " ++ name ++ " not in happi database; skipping"))
  | some (Except.error ex) =>
      Except.error (HappiError.happiLoadError
        ("Device " ++ name ++ " invalid in happi database; " ++ ex))
  | some (Except.ok dev) => Except.ok dev

/-- C7: device resolution distinguishes not-found from found-but-invalid:
`get_happi_device_by_name` raises `MissingHappiDeviceError` exactly when the
name is absent from the database, raises `HappiLoadError` exactly when the
name is present but instantiation fails, and otherwise returns the
instantiated device. -/
theorem get_happi_device_by_name_classifies
    (Device : Type) (client : HappiClient Device) (name : String) :
    ((∃ m, get_happi_device_by_name client name
        = Except.error (HappiError.missingHappiDeviceError m))
      ↔ client.find name = none) ∧
    ((∃ m, get_happi_device_by_name client name
        = Except.error (HappiError.happiLoadError m))
      ↔ ∃ e, client.find name = some (Except.error e)) ∧
    (∀ d, get_happi_device_by_name client name = Except.ok d
      ↔ client.find name = some (Except.ok d)) := by
  unfold get_happi_device_by_name
  rcases h : client.find name with _ | r
  · simp
  · cases r <;> simp

/-! ## `remove_signal` (src/atef/widgets/config/data.py) -/

/-- Lookup in a Python `dict` modelled as an insertion-ordered association
list with unique keys: `d[name]`, `none` models `KeyError`. -/
def dictGet? {β : Type} : List (String × β) → String → Option β
  | [], _ => none
  | p :: ps, k => if p.1 = k then some p.2 else dictGet? ps k

/-- Deletion from a Python `dict` modelled as an association list:
`del d[name]` removes the (unique) entry with that key. -/
def dictDel {β : Type} : List (String × β) → String → List (String × β)
  | [], _ => []
  | p :: ps, k => if p.1 = k then ps else p :: dictDel ps k

/-- The state edited by `DeviceConfigurationWidget`: the `by_attr` mapping
(attribute name to ordered comparison list) and the `shared` comparison list
of the underlying `DeviceConfiguration` dataclass. -/
structure DeviceConfigurationState (Cmp : Type) where
  by_attr : List (String × List Cmp)
  shared : List Cmp
  deriving DecidableEq

/-- The state edited by `PVConfigurationWidget`: the `by_pv` mapping and the
`shared` comparison list of the underlying `PVConfiguration` dataclass. -/
structure PVConfigurationState (Cmp : Type) where
  by_pv : List (String × List Cmp)
  shared : List Cmp
  deriving DecidableEq

/-- `DeviceConfigurationWidget.remove_signal`: on `KeyError` do nothing;
otherwise append each comparison stored under `name` to `shared` (in order,
one at a time) and delete the key from `by_attr`. -/
def DeviceConfigurationState.remove_signal {Cmp : Type}
    (c : DeviceConfigurationState Cmp) (name : String) :
    DeviceConfigurationState Cmp :=
  match dictGet? c.by_attr name with
  | none => c
  | some old_comparisons =>
      { by_attr := dictDel c.by_attr name
        shared := old_comparisons.foldl (fun acc comparison => acc ++ [comparison]) c.shared }

/-- `PVConfigurationWidget.remove_signal`: same code over `by_pv`. -/
def PVConfigurationState.remove_signal {Cmp : Type}
    (c : PVConfigurationState Cmp) (name : String) :
    PVConfigurationState Cmp :=
  match dictGet? c.by_pv name with
  | none => c
  | some old_comparisons =>
      { by_pv := dictDel c.by_pv name
        shared := old_comparisons.foldl (fun acc comparison => acc ++ [comparison]) c.shared }

theorem foldl_append_singleton {α : Type} (l acc : List α) :
    l.foldl (fun a x => a ++ [x]) acc = acc ++ l := by
  induction l generalizing acc with
  | nil => simp
  | cons x xs ih => simp [List.foldl_cons, ih]

theorem dictGet?_eq_none_of_not_mem {β : Type} (l : List (String × β)) (k : String)
    (h : k ∉ l.map Prod.fst) : dictGet? l k = none := by
  induction l with
  | nil => rfl
  | cons p ps ih =>
      simp only [List.map_cons, List.mem_cons, not_or] at h
      rw [dictGet?, if_neg (fun hk : p.1 = k => h.1 hk.symm)]
      exact ih h.2

theorem dictGet?_dictDel_self {β : Type} (l : List (String × β)) (k : String)
    (h : (l.map Prod.fst).Nodup) : dictGet? (dictDel l k) k = none := by
  induction l with
  | nil => rfl
  | cons p ps ih =>
      simp only [List.map_cons, List.nodup_cons] at h
      by_cases hk : p.1 = k
      · simp only [dictDel, if_pos hk]
        exact dictGet?_eq_none_of_not_mem ps k (hk ▸ h.1)
      · simp only [dictDel, if_neg hk, dictGet?, if_neg hk]
        exact ih h.2

theorem dictGet?_dictDel_ne {β : Type} (l : List (String × β)) (k k' : String)
    (h : k' ≠ k) : dictGet? (dictDel l k) k' = dictGet? l k' := by
  induction l with
  | nil => rfl
  | cons p ps ih =>
      by_cases hk : p.1 = k
      · rw [dictDel, if_pos hk, dictGet?,
          if_neg (fun hh : p.1 = k' => h (hk.symm.trans hh).symm)]
      · rw [dictDel, if_neg hk, dictGet?, dictGet?]
        by_cases hk' : p.1 = k'
        · rw [if_pos hk', if_pos hk']
        · rw [if_neg hk', if_neg hk', ih]

/-- C4: `remove_signal name` on a device (resp. PV) configuration with `name`
a key of `by_attr` (resp. `by_pv`) appends that key's comparisons, in order,
to `shared` and deletes the key, leaving every other key's list unchanged;
with `name` not a key, the configuration is left entirely unchanged. -/
theorem remove_signal_spec (Cmp : Type)
    (dc : DeviceConfigurationState Cmp) (pc : PVConfigurationState Cmp)
    (name : String)
    (hd : (dc.by_attr.map Prod.fst).Nodup)
    (hp : (pc.by_pv.map Prod.fst).Nodup) :
    ((∀ comps, dictGet? dc.by_attr name = some comps →
        (dc.remove_signal name).shared = dc.shared ++ comps ∧
        dictGet? (dc.remove_signal name).by_attr name = none ∧
        ∀ k, k ≠ name →
          dictGet? (dc.remove_signal name).by_attr k = dictGet? dc.by_attr k) ∧
      (dictGet? dc.by_attr name = none → dc.remove_signal name = dc)) ∧
    ((∀ comps, dictGet? pc.by_pv name = some comps →
        (pc.remove_signal name).shared = pc.shared ++ comps ∧
        dictGet? (pc.remove_signal name).by_pv name = none ∧
        ∀ k, k ≠ name →
          dictGet? (pc.remove_signal name).by_pv k = dictGet? pc.by_pv k) ∧
      (dictGet? pc.by_pv name = none → pc.remove_signal name = pc)) := by
  constructor
  · constructor
    · intro comps hc
      unfold DeviceConfigurationState.remove_signal
      rw [hc]
      refine ⟨foldl_append_singleton comps dc.shared, ?_, ?_⟩
      · exact dictGet?_dictDel_self dc.by_attr name hd
      · intro k hk
        exact dictGet?_dictDel_ne dc.by_attr name k hk
    · intro hc
      unfold DeviceConfigurationState.remove_signal
      rw [hc]
  · constructor
    · intro comps hc
      unfold PVConfigurationState.remove_signal
      rw [hc]
      refine ⟨foldl_append_singleton comps pc.shared, ?_, ?_⟩
      · exact dictGet?_dictDel_self pc.by_pv name hp
      · intro k hk
        exact dictGet?_dictDel_ne pc.by_pv name k hk
    · intro hc
      unfold PVConfigurationState.remove_signal
      rw [hc]

/-- Witness for C4 at a concrete configuration: removing key `"a"` from
`by_attr = [a ↦ [1, 2], b ↦ [3]]`, `shared = [9]` (and the analogous PV
configuration). -/
theorem remove_signal_spec_witness :
    ((∀ comps,
        dictGet? (⟨[("a", [1, 2]), ("b", [3])], [9]⟩ :
          DeviceConfigurationState Nat).by_attr "a" = some comps →
        ((⟨[("a", [1, 2]), ("b", [3])], [9]⟩ :
          DeviceConfigurationState Nat).remove_signal "a").shared
            = (⟨[("a", [1, 2]), ("b", [3])], [9]⟩ :
              DeviceConfigurationState Nat).shared ++ comps ∧
        dictGet? (((⟨[("a", [1, 2]), ("b", [3])], [9]⟩ :
          DeviceConfigurationState Nat).remove_signal "a").by_attr) "a" = none ∧
        ∀ k, k ≠ "a" →
          dictGet? (((⟨[("a", [1, 2]), ("b", [3])], [9]⟩ :
            DeviceConfigurationState Nat).remove_signal "a").by_attr) k
          = dictGet? (⟨[("a", [1, 2]), ("b", [3])], [9]⟩ :
              DeviceConfigurationState Nat).by_attr k) ∧
      (dictGet? (⟨[("a", [1, 2]), ("b", [3])], [9]⟩ :
          DeviceConfigurationState Nat).by_attr "a" = none →
        (⟨[("a", [1, 2]), ("b", [3])], [9]⟩ :
          DeviceConfigurationState Nat).remove_signal "a"
        = ⟨[("a", [1, 2]), ("b", [3])], [9]⟩)) ∧
    ((∀ comps,
        dictGet? (⟨[("pv1", [4])], [7]⟩ :
          PVConfigurationState Nat).by_pv "a" = some comps →
        ((⟨[("pv1", [4])], [7]⟩ :
          PVConfigurationState Nat).remove_signal "a").shared
            = (⟨[("pv1", [4])], [7]⟩ : PVConfigurationState Nat).shared ++ comps ∧
        dictGet? (((⟨[("pv1", [4])], [7]⟩ :
          PVConfigurationState Nat).remove_signal "a").by_pv) "a" = none ∧
        ∀ k, k ≠ "a" →
          dictGet? (((⟨[("pv1", [4])], [7]⟩ :
            PVConfigurationState Nat).remove_signal "a").by_pv) k
          = dictGet? (⟨[("pv1", [4])], [7]⟩ :
              PVConfigurationState Nat).by_pv k) ∧
      (dictGet? (⟨[("pv1", [4])], [7]⟩ :
          PVConfigurationState Nat).by_pv "a" = none →
        (⟨[("pv1", [4])], [7]⟩ : PVConfigurationState Nat).remove_signal "a"
        = ⟨[("pv1", [4])], [7]⟩)) :=
  remove_signal_spec Nat ⟨[("a", [1, 2]), ("b", [3])], [9]⟩ ⟨[("pv1", [4])], [7]⟩
    "a" (by decide) (by decide)

/-! ## `gather_relevant_identifiers` (src/atef/widgets/config/utils.py) -/

/-- Modelled from the spec: a `Comparison` (`atef/check.py`, not under `src/`)
is a Python dataclass record of the attributes the spec lists (name,
description, invert, reducePeriod, ...).  To reason about object identity
versus dataclass equality we carry, alongside the record value `val`, an
instance id `objId` distinguishing distinct Python objects; the
dataclass-generated `==` compares only the record values. -/
structure CompInstance (V : Type) where
  objId : Nat
  val : V
  deriving DecidableEq

/-- An entry appended to the identifier list returned by
`gather_relevant_identifiers`: the `DeviceConfiguration` branch appends
`(device, attr)` tuples, the other branches plain strings. -/
inductive PyIdent where
  | pair (device attr : String)
  | str (s : String)
  deriving DecidableEq

/-- The union type accepted by `gather_relevant_identifiers`:
`DeviceConfiguration`, `PVConfiguration`, `ToolConfiguration` (each with its
identifier mapping and `shared` list) or a `SetValueStep` whose
`success_criteria` pair a comparison with the `pvname` of `check.to_signal()`
(`none` when `to_signal()` returns no signal). -/
inductive ConfigGroup (V : Type) where
  | deviceConfiguration (devices : List String)
      (by_attr : List (String × List (CompInstance V)))
      (shared : List (CompInstance V))
  | pvConfiguration (by_pv : List (String × List (CompInstance V)))
      (shared : List (CompInstance V))
  | toolConfiguration (by_attr : List (String × List (CompInstance V)))
      (shared : List (CompInstance V))
  | setValueStep (success_criteria : List (CompInstance V × Option String))

/-- `gather_relevant_identifiers(comp, group)`: walk the group's identifier
positions and append the identifier of every position whose comparison
satisfies `comparison == comp` (Python dataclass equality, i.e. equality of
the record values). -/
def gather_relevant_identifiers {V : Type} [DecidableEq V]
    (comp : CompInstance V) (group : ConfigGroup V) : List PyIdent :=
  match group with
  | .deviceConfiguration devices by_attr shared =>
      devices.foldl (fun ids device =>
        by_attr.foldl (fun ids2 p =>
          (p.2 ++ shared).foldl (fun ids3 comparison =>
            if comparison.val = comp.val then ids3 ++ [PyIdent.pair device p.1]
            else ids3) ids2) ids) []
  | .pvConfiguration by_pv shared =>
      by_pv.foldl (fun ids p =>
        (p.2 ++ shared).foldl (fun ids2 comparison =>
          if comparison.val = comp.val then ids2 ++ [PyIdent.str p.1]
          else ids2) ids) []
  | .toolConfiguration by_attr shared =>
      by_attr.foldl (fun ids p =>
        (p.2 ++ shared).foldl (fun ids2 comparison =>
          if comparison.val = comp.val then ids2 ++ [PyIdent.str p.1]
          else ids2) ids) []
  | .setValueStep success_criteria =>
      success_criteria.foldl (fun ids check =>
        if check.1.val = comp.val then
          match check.2 with
          | some pvname => ids ++ [PyIdent.str pvname]
          | none => ids
        else ids) []

theorem foldl_append_fn {α β : Type} (g : α → List β) (l : List α) (acc : List β) :
    l.foldl (fun a x => a ++ g x) acc = acc ++ l.flatMap g := by
  induction l generalizing acc with
  | nil => simp
  | cons x xs ih => simp [List.foldl_cons, ih]

theorem inner_fold_eq {V : Type} [DecidableEq V] (cval : V) (ident : PyIdent)
    (comps : List (CompInstance V)) (acc : List PyIdent) :
    comps.foldl (fun a comparison =>
        if comparison.val = cval then a ++ [ident] else a) acc
    = acc ++ comps.flatMap (fun comparison =>
        if comparison.val = cval then [ident] else []) := by
  have h : (fun (a : List PyIdent) (comparison : CompInstance V) =>
      if comparison.val = cval then a ++ [ident] else a)
      = fun a comparison =>
        a ++ (if comparison.val = cval then [ident] else []) := by
    funext a comparison
    by_cases hc : comparison.val = cval
    · rw [if_pos hc, if_pos hc]
    · rw [if_neg hc, if_neg hc, List.append_nil]
  rw [h, foldl_append_fn]

theorem byKey_fold_eq {V : Type} [DecidableEq V] (cval : V)
    (entries : List (String × List (CompInstance V)))
    (shared : List (CompInstance V)) :
    entries.foldl (fun ids p =>
        (p.2 ++ shared).foldl (fun ids2 comparison =>
          if comparison.val = cval then ids2 ++ [PyIdent.str p.1]
          else ids2) ids) []
    = entries.flatMap (fun p => (p.2 ++ shared).flatMap (fun comparison =>
        if comparison.val = cval then [PyIdent.str p.1] else [])) := by
  have h : (fun (ids : List PyIdent) (p : String × List (CompInstance V)) =>
      (p.2 ++ shared).foldl (fun ids2 comparison =>
        if comparison.val = cval then ids2 ++ [PyIdent.str p.1]
        else ids2) ids)
      = fun ids p => ids ++ (p.2 ++ shared).flatMap (fun comparison =>
          if comparison.val = cval then [PyIdent.str p.1] else []) := by
    funext ids p
    rw [inner_fold_eq]
  rw [h, foldl_append_fn, List.nil_append]

theorem gather_pv_eq {V : Type} [DecidableEq V] (comp : CompInstance V)
    (by_pv : List (String × List (CompInstance V)))
    (shared : List (CompInstance V)) :
    gather_relevant_identifiers comp (ConfigGroup.pvConfiguration by_pv shared)
    = by_pv.flatMap (fun p => (p.2 ++ shared).flatMap (fun comparison =>
        if comparison.val = comp.val then [PyIdent.str p.1] else [])) := by
  simp only [gather_relevant_identifiers]
  exact byKey_fold_eq comp.val by_pv shared

theorem gather_tool_eq {V : Type} [DecidableEq V] (comp : CompInstance V)
    (by_attr : List (String × List (CompInstance V)))
    (shared : List (CompInstance V)) :
    gather_relevant_identifiers comp (ConfigGroup.toolConfiguration by_attr shared)
    = by_attr.flatMap (fun p => (p.2 ++ shared).flatMap (fun comparison =>
        if comparison.val = comp.val then [PyIdent.str p.1] else [])) := by
  simp only [gather_relevant_identifiers]
  exact byKey_fold_eq comp.val by_attr shared

theorem gather_device_eq {V : Type} [DecidableEq V] (comp : CompInstance V)
    (devices : List String)
    (by_attr : List (String × List (CompInstance V)))
    (shared : List (CompInstance V)) :
    gather_relevant_identifiers comp
        (ConfigGroup.deviceConfiguration devices by_attr shared)
    = devices.flatMap (fun device => by_attr.flatMap (fun p =>
        (p.2 ++ shared).flatMap (fun comparison =>
          if comparison.val = comp.val then [PyIdent.pair device p.1]
          else []))) := by
  simp only [gather_relevant_identifiers]
  have h1 : ∀ device : String,
      (fun (ids2 : List PyIdent) (p : String × List (CompInstance V)) =>
        (p.2 ++ shared).foldl (fun ids3 comparison =>
          if comparison.val = comp.val then ids3 ++ [PyIdent.pair device p.1]
          else ids3) ids2)
      = fun ids2 p => ids2 ++ (p.2 ++ shared).flatMap (fun comparison =>
          if comparison.val = comp.val then [PyIdent.pair device p.1]
          else []) := by
    intro device
    funext ids2 p
    rw [inner_fold_eq]
  have h2 : (fun (ids : List PyIdent) (device : String) =>
      by_attr.foldl (fun ids2 p =>
        (p.2 ++ shared).foldl (fun ids3 comparison =>
          if comparison.val = comp.val then ids3 ++ [PyIdent.pair device p.1]
          else ids3) ids2) ids)
      = fun ids device => ids ++ by_attr.flatMap (fun p =>
          (p.2 ++ shared).flatMap (fun comparison =>
            if comparison.val = comp.val then [PyIdent.pair device p.1]
            else [])) := by
    funext ids device
    rw [h1 device, foldl_append_fn]
  rw [h2, foldl_append_fn, List.nil_append]

theorem gather_svs_eq {V : Type} [DecidableEq V] (comp : CompInstance V)
    (criteria : List (CompInstance V × Option String)) :
    gather_relevant_identifiers comp (ConfigGroup.setValueStep criteria)
    = criteria.flatMap (fun check =>
        if check.1.val = comp.val then
          (match check.2 with
           | some pvname => [PyIdent.str pvname]
           | none => [])
        else []) := by
  simp only [gather_relevant_identifiers]
  have h : (fun (ids : List PyIdent) (check : CompInstance V × Option String) =>
      if check.1.val = comp.val then
        match check.2 with
        | some pvname => ids ++ [PyIdent.str pvname]
        | none => ids
      else ids)
      = fun ids check => ids ++ (if check.1.val = comp.val then
          (match check.2 with
           | some pvname => [PyIdent.str pvname]
           | none => [])
          else []) := by
    funext ids check
    obtain ⟨cc, sig⟩ := check
    by_cases hv : cc.val = comp.val
    · rw [if_pos hv, if_pos hv]
      cases sig with
      | none => rw [List.append_nil]
      | some pvname => rfl
    · rw [if_neg hv, if_neg hv, List.append_nil]
  rw [h, foldl_append_fn, List.nil_append]

theorem mem_flatMap_ite {V : Type} [DecidableEq V] (cv : V) (ident y : PyIdent)
    (comps : List (CompInstance V)) :
    y ∈ comps.flatMap (fun comparison =>
        if comparison.val = cv then [ident] else [])
      ↔ (y = ident ∧ ∃ x ∈ comps, x.val = cv) := by
  rw [List.mem_flatMap]
  constructor
  · rintro ⟨x, hx, hm⟩
    by_cases hv : x.val = cv
    · rw [if_pos hv, List.mem_singleton] at hm
      exact ⟨hm, x, hx, hv⟩
    · rw [if_neg hv] at hm
      exact absurd hm (List.not_mem_nil y)
  · rintro ⟨hy, x, hx, hv⟩
    refine ⟨x, hx, ?_⟩
    rw [if_pos hv, hy]
    exact List.mem_singleton.mpr rfl

theorem mem_byKey {V : Type} [DecidableEq V] (cv : V) (key : String)
    (entries : List (String × List (CompInstance V)))
    (shared : List (CompInstance V)) :
    PyIdent.str key ∈ entries.flatMap (fun p =>
        (p.2 ++ shared).flatMap (fun comparison =>
          if comparison.val = cv then [PyIdent.str p.1] else []))
      ↔ ∃ comps, (key, comps) ∈ entries ∧ ∃ x ∈ comps ++ shared, x.val = cv := by
  rw [List.mem_flatMap]
  constructor
  · rintro ⟨p, hp, hm⟩
    obtain ⟨k, comps⟩ := p
    rw [mem_flatMap_ite] at hm
    obtain ⟨hy, x, hx, hv⟩ := hm
    injection hy with hk
    refine ⟨comps, ?_, x, hx, hv⟩
    rw [hk]
    exact hp
  · rintro ⟨comps, hp, x, hx, hv⟩
    refine ⟨(key, comps), hp, ?_⟩
    rw [mem_flatMap_ite]
    exact ⟨rfl, x, hx, hv⟩

/-- C3 counterexample: a `PVConfiguration` holding two distinct instances
(`objId` 0 and 1) with equal record values at keys `"pv1"` and `"pv2"`:
gathering for the instance at `"pv1"` also yields `"pv2"`, the position
occupied by the equal-valued but distinct instance. -/
theorem gather_relevant_identifiers_value_cex :
    gather_relevant_identifiers (⟨0, 7⟩ : CompInstance Nat)
      (ConfigGroup.pvConfiguration [("pv1", [⟨0, 7⟩]), ("pv2", [⟨1, 7⟩])] [])
      = [PyIdent.str "pv1", PyIdent.str "pv2"] ∧
    (⟨0, 7⟩ : CompInstance Nat) ≠ ⟨1, 7⟩ ∧
    (⟨0, 7⟩ : CompInstance Nat).val = (⟨1, 7⟩ : CompInstance Nat).val := by
  refine ⟨?_, by decide, rfl⟩
  rfl

/-- C3 amended: locating a comparison matches by dataclass value equality,
not identity.  The gathered list depends only on `comp`'s record value
(changing the instance id leaves it unchanged, so equal-valued distinct
instances are indistinguishable), and an identifier is gathered exactly for
the positions holding a value-equal comparison: for PV and Tool
configurations the entry's key (own list plus `shared`); for Device
configurations one `(device, attr)` pair per declared device, for every
attr whose list plus `shared` holds a value-equal comparison; for
SetValueStep the check's signal PV when present. -/
theorem gather_relevant_identifiers_by_value {V : Type} [DecidableEq V]
    (c : CompInstance V) :
    (∀ (g : ConfigGroup V) (n : Nat),
      gather_relevant_identifiers ⟨n, c.val⟩ g
        = gather_relevant_identifiers c g) ∧
    (∀ (pvname : String) (by_pv : List (String × List (CompInstance V)))
        (shared : List (CompInstance V)),
      PyIdent.str pvname ∈ gather_relevant_identifiers c
          (ConfigGroup.pvConfiguration by_pv shared)
        ↔ ∃ comps, (pvname, comps) ∈ by_pv ∧
            ∃ x ∈ comps ++ shared, x.val = c.val) ∧
    (∀ (result_key : String) (by_attr : List (String × List (CompInstance V)))
        (shared : List (CompInstance V)),
      PyIdent.str result_key ∈ gather_relevant_identifiers c
          (ConfigGroup.toolConfiguration by_attr shared)
        ↔ ∃ comps, (result_key, comps) ∈ by_attr ∧
            ∃ x ∈ comps ++ shared, x.val = c.val) ∧
    (∀ (device attr : String) (devices : List String)
        (by_attr : List (String × List (CompInstance V)))
        (shared : List (CompInstance V)),
      PyIdent.pair device attr ∈ gather_relevant_identifiers c
          (ConfigGroup.deviceConfiguration devices by_attr shared)
        ↔ device ∈ devices ∧ ∃ comps, (attr, comps) ∈ by_attr ∧
            ∃ x ∈ comps ++ shared, x.val = c.val) ∧
    (∀ (pvname : String) (criteria : List (CompInstance V × Option String)),
      PyIdent.str pvname ∈ gather_relevant_identifiers c
          (ConfigGroup.setValueStep criteria)
        ↔ ∃ chk ∈ criteria, chk.1.val = c.val ∧ chk.2 = some pvname) := by
  refine ⟨?_, ?_, ?_, ?_, ?_⟩
  · intro g n
    cases g <;> rfl
  · intro pvname by_pv shared
    rw [gather_pv_eq, mem_byKey]
  · intro result_key by_attr shared
    rw [gather_tool_eq, mem_byKey]
  · intro device attr devices by_attr shared
    rw [gather_device_eq, List.mem_flatMap]
    constructor
    · rintro ⟨d, hd, hm⟩
      rw [List.mem_flatMap] at hm
      obtain ⟨p, hp, hm⟩ := hm
      obtain ⟨k, comps⟩ := p
      rw [mem_flatMap_ite] at hm
      obtain ⟨hy, x, hx, hv⟩ := hm
      injection hy with hdev hattr
      refine ⟨?_, comps, ?_, x, hx, hv⟩
      · rw [hdev]
        exact hd
      · rw [hattr]
        exact hp
    · rintro ⟨hdev, comps, hattr, x, hx, hv⟩
      refine ⟨device, hdev, ?_⟩
      rw [List.mem_flatMap]
      refine ⟨(attr, comps), hattr, ?_⟩
      rw [mem_flatMap_ite]
      exact ⟨rfl, x, hx, hv⟩
  · intro pvname criteria
    rw [gather_svs_eq, List.mem_flatMap]
    constructor
    · rintro ⟨chk, hchk, hm⟩
      by_cases hv : chk.1.val = c.val
      · rw [if_pos hv] at hm
        rcases h2 : chk.2 with _ | pv
        · rw [h2] at hm
          exact absurd hm (List.not_mem_nil _)
        · rw [h2] at hm
          rw [List.mem_singleton] at hm
          injection hm with hpv
          refine ⟨chk, hchk, hv, ?_⟩
          rw [h2, hpv]
      · rw [if_neg hv] at hm
        exact absurd hm (List.not_mem_nil _)
    · rintro ⟨chk, hchk, hv, h2⟩
      refine ⟨chk, hchk, ?_⟩
      rw [if_pos hv, h2]
      exact List.mem_singleton.mpr rfl

/-! ## `EqualsComparisonWidget.update_range_label` (src/atef/widgets/config/data.py) -/

/-- The dataclass value under an Equals comparison's bridge, as inspected by
`update_range_label`: an `int`/`float` (modelled as a rational), a `bool`, or
anything else (for which the method returns without touching the label). -/
inductive EqValue where
  | num (v : ℚ)
  | boolean (b : Bool)
  | other
  deriving DecidableEq

/-- The text content `update_range_label` writes to the range label: a
boolean summary, or the tolerance half-width shown as `± diff` (we model the
numeric content of the label and elide the 3-significant-digit rendering). -/
inductive RangeLabel where
  | boolText (b : Bool)
  | tolerance (diff : ℚ)
  deriving DecidableEq

/-- `EqualsComparisonWidget.update_range_label`: non-numeric values leave the
label untouched (`none`); booleans get a boolean summary; numeric values get
`diff = atol + abs(rtol * value)` with `atol`/`rtol` read through Python's
`x or 0` (a missing value counts as 0). -/
def update_range_label (value : EqValue) (atol rtol : Option ℚ) :
    Option RangeLabel :=
  match value with
  | .other => none
  | .boolean b => some (RangeLabel.boolText b)
  | .num v => some (RangeLabel.tolerance ((atol.getD 0) + |(rtol.getD 0) * v|))

/-- Modelled from the spec: the numeric Equals predicate (`atef/check.py`,
not under `src/`): `|observed - target| <= atol + rtol*|target|`. -/
def equals_predicate (target atol rtol observed : ℚ) : Prop :=
  |observed - target| ≤ atol + rtol * |target|

/-- C5 counterexample: with target `2`, `atol = 0`, `rtol = -1`, the code
displays the half-width `0 + abs(-1 * 2) = 2`, while `atol + rtol*|target|`
is `-2`: the claimed identity fails for negative `rtol`. -/
theorem update_range_label_cex :
    update_range_label (EqValue.num 2) (some 0) (some (-1))
      = some (RangeLabel.tolerance 2) ∧
    (0 : ℚ) + (-1) * |(2 : ℚ)| = -2 ∧ (2 : ℚ) ≠ -2 := by
  refine ⟨?_, by norm_num, by norm_num⟩
  simp only [update_range_label, Option.getD_some]
  norm_num

/-- C5 amended: for every numeric Equals comparison with nonnegative relative
tolerance, the displayed half-width equals `atol + rtol*|target|`, the
predicate's acceptance threshold: the band matches the predicate
`|observed - target| <= atol + rtol*|target|`. -/
theorem update_range_label_matches_predicate
    (v : ℚ) (atol rtol : Option ℚ) (h : 0 ≤ rtol.getD 0) :
    update_range_label (EqValue.num v) atol rtol
      = some (RangeLabel.tolerance (atol.getD 0 + rtol.getD 0 * |v|)) ∧
    (∀ observed : ℚ,
      equals_predicate v (atol.getD 0) (rtol.getD 0) observed
        ↔ |observed - v| ≤ atol.getD 0 + rtol.getD 0 * |v|) := by
  constructor
  · simp only [update_range_label, Option.some.injEq, RangeLabel.tolerance.injEq]
    rw [abs_mul, abs_of_nonneg h]
  · intro observed
    exact Iff.rfl

/-- Witness for C5's amended theorem at target `-4`, `atol = 1`,
`rtol = 1/2`. -/
theorem update_range_label_matches_predicate_witness :
    update_range_label (EqValue.num (-4)) (some 1) (some (1 / 2))
      = some (RangeLabel.tolerance
          ((some (1 : ℚ)).getD 0 + (some ((1 : ℚ) / 2)).getD 0 * |(-4 : ℚ)|)) ∧
    (∀ observed : ℚ,
      equals_predicate (-4) ((some (1 : ℚ)).getD 0)
          ((some ((1 : ℚ) / 2)).getD 0) observed
        ↔ |observed - (-4)|
            ≤ (some (1 : ℚ)).getD 0 + (some ((1 : ℚ) / 2)).getD 0 * |(-4 : ℚ)|) :=
  update_range_label_matches_predicate (-4) (some 1) (some (1 / 2)) (by norm_num)

/-! ## The two `new_reduce_period_edit` slots
(src/atef/widgets/config/data.py `GeneralComparisonWidget` and
src/atef/widgets/config.py `CompView`) -/

/-- Numeral value of a list of decimal digit characters. -/
def digitsVal (cs : List Char) : Nat :=
  cs.foldl (fun n c => 10 * n + (c.toNat - 48)) 0

/-- Partial model of the Python builtin `float(str)` on plain decimal
numerals: optional sign, integer digits, optional `.` and fraction digits,
at least one digit overall; `none` models `ValueError` (on such plain inputs
the builtin raises exactly when this returns `none`). -/
def pyFloat (s : String) : Option ℚ :=
  let signed : ℚ × List Char :=
    match s.toList with
    | '-' :: r => (-1, r)
    | '+' :: r => (1, r)
    | r => (1, r)
  let intPart := signed.2.takeWhile Char.isDigit
  let rest := signed.2.dropWhile Char.isDigit
  match rest with
  | [] =>
      if intPart = [] then none
      else some (signed.1 * (digitsVal intPart : ℚ))
  | '.' :: fracPart =>
      if fracPart.all Char.isDigit ∧ ¬(intPart = [] ∧ fracPart = []) then
        some (signed.1 * ((digitsVal intPart : ℚ)
          + (digitsVal fracPart : ℚ) / (10 : ℚ) ^ fracPart.length))
      else none
  | _ => none

theorem pyFloat_neg_one : pyFloat "-1" = some (-1) := by
  have h : pyFloat "-1" = some ((-1 : ℚ) * (digitsVal ['1'] : ℚ)) := rfl
  rw [h, show digitsVal ['1'] = 1 from rfl]
  norm_num

theorem pyFloat_two_five : pyFloat "2.5" = some (5 / 2) := by
  have h : pyFloat "2.5" = some ((1 : ℚ) * ((digitsVal ['2'] : ℚ)
      + (digitsVal ['5'] : ℚ) / (10 : ℚ) ^ (1 : Nat))) := rfl
  rw [h, show digitsVal ['2'] = 2 from rfl, show digitsVal ['5'] = 5 from rfl]
  norm_num

theorem pyFloat_abc : pyFloat "abc" = none := rfl

/-- `GeneralComparisonWidget.new_reduce_period_edit`
(src/atef/widgets/config/data.py): `try: value = float(value) except: pass
else: bridge.reduce_period.put(value)` — parameterized by the float-parsing
function; returns the reduce period stored after the slot runs, given the
previously stored one. -/
def GeneralComparisonWidget.new_reduce_period_edit
    (parseFloat : String → Option ℚ) (value : String) (stored : ℚ) : ℚ :=
  match parseFloat value with
  | none => stored
  | some v => v

/-- `CompView.new_reduce_period_edit` (src/atef/widgets/config.py):
`try: value = float(value) except: value = 0` then unconditionally
`bridge.reduce_period.put(value)` (the prior stored value is never read). -/
def CompView.new_reduce_period_edit
    (parseFloat : String → Option ℚ) (value : String) (_stored : ℚ) : ℚ :=
  match parseFloat value with
  | none => 0
  | some v => v

/-- C6 counterexample: with the period stored as `0 ≥ 0`, the input `"-1"`
parses as the float `-1` and is stored unchanged: the slot leaves the
dataclass with `reduce_period = -1 < 0`. -/
theorem new_reduce_period_edit_negative_cex :
    GeneralComparisonWidget.new_reduce_period_edit pyFloat "-1" 0 = -1 ∧
    CompView.new_reduce_period_edit pyFloat "-1" 0 = -1 ∧
    ¬(0 : ℚ) ≤ -1 := by
  unfold GeneralComparisonWidget.new_reduce_period_edit
    CompView.new_reduce_period_edit
  rw [pyFloat_neg_one]
  exact ⟨rfl, rfl, by norm_num⟩

/-- C6 amended: the slots store the parsed float unchanged (with no sign
check), so `reduce_period ≥ 0` is preserved exactly when the input does not
parse to a negative float: if the stored period is nonnegative and every
successful parse of the input is nonnegative, the stored period stays
nonnegative (in both implementations). -/
theorem new_reduce_period_edit_nonneg
    (parseFloat : String → Option ℚ) (value : String) (stored : ℚ)
    (hs : 0 ≤ stored) (hv : ∀ v, parseFloat value = some v → 0 ≤ v) :
    0 ≤ GeneralComparisonWidget.new_reduce_period_edit parseFloat value stored ∧
    0 ≤ CompView.new_reduce_period_edit parseFloat value stored := by
  unfold GeneralComparisonWidget.new_reduce_period_edit
    CompView.new_reduce_period_edit
  rcases h : parseFloat value with _ | v
  · exact ⟨hs, le_refl 0⟩
  · exact ⟨hv v h, hv v h⟩

/-- Witness for C6's amended theorem: input `"2.5"`, prior period `0`. -/
theorem new_reduce_period_edit_nonneg_witness :
    0 ≤ GeneralComparisonWidget.new_reduce_period_edit pyFloat "2.5" 0 ∧
    0 ≤ CompView.new_reduce_period_edit pyFloat "2.5" 0 :=
  new_reduce_period_edit_nonneg pyFloat "2.5" 0 (le_refl 0)
    (fun v h => by
      rw [pyFloat_two_five, Option.some.injEq] at h
      rw [← h]
      norm_num)

/-- C9 counterexample: on the unparseable input `"abc"` with prior stored
period `5`, the data.py slot leaves the period at `5` while the config.py
slot resets it to `0`: the two implementations are not equivalent. -/
theorem new_reduce_period_edit_equiv_cex :
    GeneralComparisonWidget.new_reduce_period_edit pyFloat "abc" 5 = 5 ∧
    CompView.new_reduce_period_edit pyFloat "abc" 5 = 0 ∧
    (5 : ℚ) ≠ 0 := by
  unfold GeneralComparisonWidget.new_reduce_period_edit
    CompView.new_reduce_period_edit
  rw [pyFloat_abc]
  exact ⟨rfl, rfl, by norm_num⟩

/-- C9 amended: the two slots agree exactly on inputs that `float()` parses
(both storing the parsed value); on an unparseable input the config.py slot
resets the stored period to `0` while the data.py slot leaves it unchanged. -/
theorem new_reduce_period_edit_equiv_on_parse
    (parseFloat : String → Option ℚ) (value : String) (stored v : ℚ)
    (h : parseFloat value = some v) :
    GeneralComparisonWidget.new_reduce_period_edit parseFloat value stored
      = CompView.new_reduce_period_edit parseFloat value stored ∧
    GeneralComparisonWidget.new_reduce_period_edit parseFloat value stored = v := by
  unfold GeneralComparisonWidget.new_reduce_period_edit
    CompView.new_reduce_period_edit
  rw [h]
  exact ⟨rfl, rfl⟩

/-- Witness for C9's amended theorem: input `"2.5"`, prior period `7`. -/
theorem new_reduce_period_edit_equiv_on_parse_witness :
    GeneralComparisonWidget.new_reduce_period_edit pyFloat "2.5" 7
      = CompView.new_reduce_period_edit pyFloat "2.5" 7 ∧
    GeneralComparisonWidget.new_reduce_period_edit pyFloat "2.5" 7 = 5 / 2 :=
  new_reduce_period_edit_equiv_on_parse pyFloat "2.5" 7 (5 / 2) pyFloat_two_five

/-! ## The two `cast_dataclass` implementations
(src/atef/widgets/config.py and src/atef/widgets/config/utils.py) -/

/-- A Python value as handled by `cast_dataclass`: atoms, lists, string-keyed
dicts, and dataclass instances (type name plus ordered field assignments).
Atoms are immutable, so `copy.deepcopy` (applied by `dataclasses.asdict`)
preserves them up to equality and is modelled as the identity on them. -/
inductive PyVal where
  | int (n : ℤ)
  | str (s : String)
  | bool (b : Bool)
  | pynone
  | list (xs : List PyVal)
  | dict (entries : List (String × PyVal))
  | dataclass (typeName : String) (fields : List (String × PyVal))

mutual

/-- The recursive inner transform of `dataclasses.asdict`: dataclass
instances become plain dicts of their fields, containers are transformed
elementwise, atoms are (deep-copied, hence) unchanged. -/
def asdictVal : PyVal → PyVal
  | .dataclass _ fields => .dict (asdictEntries fields)
  | .list xs => .list (asdictList xs)
  | .dict es => .dict (asdictEntries es)
  | .int n => .int n
  | .str s => .str s
  | .bool b => .bool b
  | .pynone => .pynone

/-- `asdictVal` mapped over a list of values. -/
def asdictList : List PyVal → List PyVal
  | [] => []
  | x :: xs => asdictVal x :: asdictList xs

/-- `asdictVal` mapped over the values of string-keyed entries. -/
def asdictEntries : List (String × PyVal) → List (String × PyVal)
  | [] => []
  | (k, v) :: es => (k, asdictVal v) :: asdictEntries es

end

mutual

/-- `true` when a value contains no dataclass instance anywhere (so the
`asdict` transform leaves it unchanged). -/
def dcFree : PyVal → Bool
  | .dataclass _ _ => false
  | .list xs => dcFreeList xs
  | .dict es => dcFreeEntries es
  | .int _ => true
  | .str _ => true
  | .bool _ => true
  | .pynone => true

/-- `dcFree` over a list of values. -/
def dcFreeList : List PyVal → Bool
  | [] => true
  | x :: xs => dcFree x && dcFreeList xs

/-- `dcFree` over the values of string-keyed entries. -/
def dcFreeEntries : List (String × PyVal) → Bool
  | [] => true
  | (_, v) :: es => dcFree v && dcFreeEntries es

end

mutual

theorem asdictVal_id : ∀ v, dcFree v = true → asdictVal v = v
  | .int _, _ => rfl
  | .str _, _ => rfl
  | .bool _, _ => rfl
  | .pynone, _ => rfl
  | .list xs, h => by
      rw [asdictVal, asdictList_id xs (by rw [dcFree] at h; exact h)]
  | .dict es, h => by
      rw [asdictVal, asdictEntries_id es (by rw [dcFree] at h; exact h)]
  | .dataclass tn fields, h => by rw [dcFree] at h; exact absurd h (by simp)

theorem asdictList_id : ∀ xs, dcFreeList xs = true → asdictList xs = xs
  | [], _ => rfl
  | x :: xs, h => by
      rw [dcFreeList, Bool.and_eq_true] at h
      rw [asdictList, asdictVal_id x h.1, asdictList_id xs h.2]

theorem asdictEntries_id : ∀ es, dcFreeEntries es = true → asdictEntries es = es
  | [], _ => rfl
  | (k, v) :: es, h => by
      rw [dcFreeEntries, Bool.and_eq_true] at h
      rw [asdictEntries, asdictVal_id v h.1, asdictEntries_id es h.2]

end

theorem dcFreeEntries_of_forall (es : List (String × PyVal))
    (h : ∀ p ∈ es, dcFree p.2 = true) : dcFreeEntries es = true := by
  induction es with
  | nil => rfl
  | cons p es ih =>
      obtain ⟨k, v⟩ := p
      rw [dcFreeEntries, Bool.and_eq_true]
      exact ⟨h (k, v) (List.mem_cons_self _ _),
        ih (fun q hq => h q (List.mem_cons_of_mem _ hq))⟩

/-- A declared dataclass field: its name and its default value, if any. -/
structure DCField where
  name : String
  default : Option PyVal

/-- A dataclass type: its name and its ordered declared fields
(`dataclasses.fields(new_type)`). -/
structure DCType where
  typeName : String
  fields : List DCField

/-- The dataclass constructor call `new_type(**kwargs)`: rejects (raises
`TypeError`, `none`) a keyword that is not a declared field; assigns each
declared field from the keyword arguments, falling back to its default, and
fails when a field has neither. -/
def mkInstance (t : DCType) (kwargs : List (String × PyVal)) : Option PyVal :=
  if kwargs.all (fun p => t.fields.any (fun (f : DCField) => f.name == p.1)) then
    (t.fields.mapM (fun (f : DCField) =>
      match dictGet? kwargs f.name with
      | some v => some (f.name, v)
      | none => f.default.map (fun d => (f.name, d)))).map
      (fun fs => PyVal.dataclass t.typeName fs)
  else none

/-- The membership test `dfield.name in field_names` shared by both
`cast_dataclass` implementations: keep an entry when its key names a field
of the target dataclass. -/
def keepField (new_type : DCType) (p : String × PyVal) : Bool :=
  new_type.fields.any (fun (f : DCField) => f.name == p.1)

theorem asdictEntries_filter (t : DCType) (es : List (String × PyVal)) :
    asdictEntries (es.filter (keepField t))
      = (asdictEntries es).filter (keepField t) := by
  induction es with
  | nil => rfl
  | cons p es ih =>
      obtain ⟨k, v⟩ := p
      by_cases hq : keepField t (k, v) = true
      · rw [List.filter_cons, if_pos hq, asdictEntries, ih, asdictEntries,
          List.filter_cons, if_pos (show keepField t (k, asdictVal v) = true from hq)]
      · rw [List.filter_cons, if_neg hq, ih, asdictEntries, List.filter_cons,
          if_neg (show ¬keepField t (k, asdictVal v) = true from hq)]

/-- `cast_dataclass` from src/atef/widgets/config/utils.py: iterate
`dataclasses.fields(data)`, keep the same-named fields, and read each value
with `getattr` (the stored value itself); `none` models the `TypeError` of
`dataclasses.fields` on a non-dataclass. -/
def cast_dataclass_utils (data : PyVal) (new_type : DCType) : Option PyVal :=
  match data with
  | .dataclass _ dataFields =>
      mkInstance new_type (dataFields.filter (keepField new_type))
  | _ => none

/-- `cast_dataclass` from src/atef/widgets/config.py: iterate
`dataclasses.asdict(data).items()` (the recursively dict-converted values)
and keep the same-named fields. -/
def cast_dataclass_config (data : PyVal) (new_type : DCType) : Option PyVal :=
  match data with
  | .dataclass _ dataFields =>
      mkInstance new_type ((asdictEntries dataFields).filter (keepField new_type))
  | _ => none

/-- C8 counterexample: casting `A(x=Inner(a=1))` to a dataclass `B` with a
field `x`: the utils.py version carries the `Inner` instance over, while the
config.py version stores the plain dict `{"a": 1}` — the two implementations
disagree on a shared field holding a nested dataclass. -/
theorem cast_dataclass_equiv_cex :
    cast_dataclass_utils
        (PyVal.dataclass "A" [("x", PyVal.dataclass "Inner" [("a", PyVal.int 1)])])
        ⟨"B", [⟨"x", none⟩]⟩
      = some (PyVal.dataclass "B"
          [("x", PyVal.dataclass "Inner" [("a", PyVal.int 1)])]) ∧
    cast_dataclass_config
        (PyVal.dataclass "A" [("x", PyVal.dataclass "Inner" [("a", PyVal.int 1)])])
        ⟨"B", [⟨"x", none⟩]⟩
      = some (PyVal.dataclass "B" [("x", PyVal.dict [("a", PyVal.int 1)])]) ∧
    PyVal.dataclass "Inner" [("a", PyVal.int 1)] ≠ PyVal.dict [("a", PyVal.int 1)] ∧
    some (PyVal.dataclass "B" [("x", PyVal.dataclass "Inner" [("a", PyVal.int 1)])])
      ≠ some (PyVal.dataclass "B" [("x", PyVal.dict [("a", PyVal.int 1)])]) := by
  refine ⟨rfl, rfl, fun h => PyVal.noConfusion h, fun h => ?_⟩
  injection h with h1
  injection h1 with hn hf
  injection hf with hp ht
  injection hp with hk hv
  exact PyVal.noConfusion hv

/-- C8 amended: the two `cast_dataclass` implementations agree on every
dataclass instance none of whose carried (same-named) field values contains
a nested dataclass — fields dropped by the cast may hold anything, and in
particular all flat dataclasses of atoms and containers of atoms agree; they
differ otherwise, the config.py version converting nested dataclasses into
plain dicts. -/
theorem cast_dataclass_equiv (tn : String) (dataFields : List (String × PyVal))
    (new_type : DCType)
    (h : ∀ p ∈ dataFields.filter (keepField new_type), dcFree p.2 = true) :
    cast_dataclass_utils (PyVal.dataclass tn dataFields) new_type
      = cast_dataclass_config (PyVal.dataclass tn dataFields) new_type := by
  simp only [cast_dataclass_utils, cast_dataclass_config]
  rw [← asdictEntries_filter new_type dataFields]
  rw [asdictEntries_id _ (dcFreeEntries_of_forall _ h)]

/-- Witness for C8's amended theorem: `A(x=1, y=Inner(b=2))` cast to
`B(x, z=0)` — the nested dataclass sits in the dropped field `y`, so only
the carried field `x` must be dataclass-free. -/
theorem cast_dataclass_equiv_witness :
    cast_dataclass_utils
        (PyVal.dataclass "A"
          [("x", PyVal.int 1), ("y", PyVal.dataclass "Inner" [("b", PyVal.int 2)])])
        ⟨"B", [⟨"x", none⟩, ⟨"z", some (PyVal.int 0)⟩]⟩
      = cast_dataclass_config
        (PyVal.dataclass "A"
          [("x", PyVal.int 1), ("y", PyVal.dataclass "Inner" [("b", PyVal.int 2)])])
        ⟨"B", [⟨"x", none⟩, ⟨"z", some (PyVal.int 0)⟩]⟩ :=
  cast_dataclass_equiv "A"
    [("x", PyVal.int 1), ("y", PyVal.dataclass "Inner" [("b", PyVal.int 2)])]
    ⟨"B", [⟨"x", none⟩, ⟨"z", some (PyVal.int 0)⟩]⟩ (by decide)

/-! ## `user_string_to_bool` (src/atef/widgets/config/utils.py) -/

/-- A Python value as passed to `user_string_to_bool` (typed `str`, but the
function's except-clause anticipates other inputs): strings, ints, floats
(modelled as rationals), lists of strings, `None`, and bools. -/
inductive PyInput where
  | str (s : String)
  | int (n : ℤ)
  | flt (q : ℚ)
  | list (xs : List String)
  | pynone
  | pybool (b : Bool)

/-- The exceptions relevant to `user_string_to_bool`: the two its
except-clause catches, and `TypeError`, which it does not. -/
inductive PyExc where
  | typeError
  | indexError
  | attributeError
  deriving DecidableEq

/-- Python truthiness `bool(text)`: empty/zero/None are falsy. -/
def truthy : PyInput → Bool
  | .str s => !(s = "")
  | .int n => !(n = 0)
  | .flt q => !(q = 0)
  | .list xs => !(xs = [])
  | .pynone => false
  | .pybool b => b

/-- The subscript `text[0]`: first character of a string, first element of a
list (`IndexError` when empty), and `TypeError` for non-subscriptable values
(ints, floats, `None`, bools). -/
def getitem0 : PyInput → Except PyExc PyInput
  | .str s =>
      match s.toList with
      | [] => Except.error PyExc.indexError
      | c :: _ => Except.ok (PyInput.str (String.mk [c]))
  | .list xs =>
      match xs with
      | [] => Except.error PyExc.indexError
      | x :: _ => Except.ok (PyInput.str x)
  | _ => Except.error PyExc.typeError

/-- The method call `x.lower()`: defined for strings (lowercase each
character), `AttributeError` for every other value. -/
def pyLower : PyInput → Except PyExc String
  | .str s => Except.ok (String.mk (s.toList.map Char.toLower))
  | _ => Except.error PyExc.attributeError

/-- `user_string_to_bool` (src/atef/widgets/config/utils.py): falsy input
returns `False`; otherwise evaluate `text[0].lower() in ('n', 'f', '0')`
inside a try-block whose except-clause catches only `IndexError` and
`AttributeError` (returning `bool(text)`); any other exception — notably the
`TypeError` from subscripting an int — propagates. -/
def user_string_to_bool (text : PyInput) : Except PyExc Bool :=
  if truthy text = false then Except.ok false
  else
    match getitem0 text with
    | Except.error PyExc.typeError => Except.error PyExc.typeError
    | Except.error _ => Except.ok (truthy text)
    | Except.ok c =>
        match pyLower c with
        | Except.error PyExc.typeError => Except.error PyExc.typeError
        | Except.error _ => Except.ok (truthy text)
        | Except.ok lc =>
            if lc = "n" ∨ lc = "f" ∨ lc = "0" then Except.ok false
            else Except.ok true

/-- C10: the function is not total — `user_string_to_bool(1)` raises an
uncaught `TypeError` (`1` is truthy and not subscriptable, and the
except-clause catches only `IndexError`/`AttributeError`), although the
docstring promises `True` for numeric inputs like 1 or 2.  The documented
behaviour does hold for falsy numerics, strings, and lists. -/
theorem user_string_to_bool_int_raises :
    user_string_to_bool (PyInput.int 1) = Except.error PyExc.typeError ∧
    user_string_to_bool (PyInput.int 2) = Except.error PyExc.typeError ∧
    user_string_to_bool (PyInput.int 0) = Except.ok false ∧
    user_string_to_bool (PyInput.flt 0) = Except.ok false ∧
    user_string_to_bool (PyInput.str "true") = Except.ok true ∧
    user_string_to_bool (PyInput.str "fa") = Except.ok false ∧
    user_string_to_bool (PyInput.str "No") = Except.ok false ∧
    user_string_to_bool (PyInput.str "0") = Except.ok false ∧
    user_string_to_bool (PyInput.str "") = Except.ok false ∧
    user_string_to_bool (PyInput.list ["a", "b"]) = Except.ok true := by
  exact ⟨rfl, rfl, rfl, rfl, rfl, rfl, rfl, rfl, rfl, rfl⟩

end Atef
